import Mathlib

/-!
Verification of the filter/search, enrichment, sorting and pagination core of
the My Trip tourism browser.

The development shallowly embeds the relevant TypeScript functions:

* the filter-parameter codec `parseFilterParams` / `buildFilterParams`
  (`lib/utils/filters.ts`),
* the pet utilities `isPetFriendly` / `matchesPetSizeFilter`
  (`lib/utils/pet.ts`),
* the sort stage `sortToursByLatest` / `sortToursByName` / `sortTours`
  (`lib/utils/sort.ts`),
* the server action `loadMoreTours` (`actions/load-tours.ts`), with the remote
  API calls abstracted as function-valued fields of a `TourApi` record, and
* the pagination state machine of the `useInfiniteTours` hook
  (`hooks/use-infinite-tours.ts`), modelled as a step function on an explicit
  state record, treating React state updates as taking effect synchronously.

JavaScript semantics used by that code is modelled explicitly: strings are
Lean `String`s and JS string/array primitives (`split`, `join`, `includes`,
`toLowerCase`, `parseInt`, `Map.set`, truthiness) are given as small Lean
functions whose names start with `js`.  JS `number` values flowing through the
codec are modelled by `JsNumber`, which distinguishes `NaN` from integers;
the code under verification only ever produces integer or `NaN` numbers.
`Array.prototype.sort` (specified by ECMAScript to be a stable comparator
sort) is modelled by Mathlib's stable `List.insertionSort`, and
`localeCompare(·, 'ko')` by code-point comparison, which agrees with Korean
collation on Hangul syllables and ASCII.
-/

/-- Model of a JS `number` as produced by the filter codec: either `NaN`
(e.g. `parseInt` failure) or an integer.  The codec never produces
non-integral finite numbers. -/
inductive JsNumber where
  | nan : JsNumber
  | int : Int → JsNumber
deriving DecidableEq, Repr

/-- JS truthiness of a `number`: `NaN` and `0` are falsy. -/
def jsNumTruthy : JsNumber → Bool
  | JsNumber.nan => false
  | JsNumber.int n => n ≠ 0

/-- JS `Number.prototype.toString` restricted to the values of `JsNumber`. -/
def jsNumToString : JsNumber → String
  | JsNumber.nan => "NaN"
  | JsNumber.int n => toString n

/-- Value of a digit list read in base 10 (helper for `jsParseInt`). -/
def digitsToInt (ds : List Char) : Int :=
  ds.foldl (fun acc c => acc * 10 + ((c.toNat : Int) - ('0'.toNat : Int))) 0

/-- Model of JS `parseInt(s, 10)`: skip leading whitespace, read an optional
sign and then the maximal leading run of decimal digits; `NaN` when that run
is empty. -/
def jsParseInt (s : String) : JsNumber :=
  let cs := s.data.dropWhile (fun c => c = ' ' || c = '\t' || c = '\n' || c = '\r')
  match cs with
  | '-' :: rest =>
    let ds := rest.takeWhile Char.isDigit
    if ds.isEmpty then JsNumber.nan else JsNumber.int (-(digitsToInt ds))
  | '+' :: rest =>
    let ds := rest.takeWhile Char.isDigit
    if ds.isEmpty then JsNumber.nan else JsNumber.int (digitsToInt ds)
  | _ =>
    let ds := cs.takeWhile Char.isDigit
    if ds.isEmpty then JsNumber.nan else JsNumber.int (digitsToInt ds)

/-- Model of JS `String.prototype.split` with a one-character separator. -/
def jsSplit (s : String) (sep : Char) : List String :=
  (s.data.splitOn sep).map String.mk

/-- Model of JS `Array.prototype.join` with a one-character separator. -/
def jsJoin (sep : Char) (l : List String) : String :=
  String.mk (List.intercalate [sep] (l.map String.data))

/-- Does the list start with the given candidate prefix (helper for
`jsIncludes`)? -/
def listStartsWith : List Char → List Char → Bool
  | _, [] => true
  | [], _ :: _ => false
  | a :: l, b :: m => decide (a = b) && listStartsWith l m

/-- Does `sub` occur as a contiguous run inside `l` (helper for
`jsIncludes`)? -/
def listHasRun : List Char → List Char → Bool
  | [], sub => sub.isEmpty
  | a :: t, sub => listStartsWith (a :: t) sub || listHasRun t sub

/-- Model of JS `a.includes(b)`: `b` occurs as a substring of `a`. -/
def jsIncludes (a b : String) : Bool :=
  listHasRun a.data b.data

/-- Model of JS `String.prototype.toLowerCase`, lowering ASCII letters.
The size tokens this program compares are Korean, on which both this function
and the JS original are the identity. -/
def jsToLowerCase (s : String) : String :=
  String.mk (s.data.map Char.toLower)

/-- Raw query parameters: an ordered key/value list, the shallow embedding of
`URLSearchParams`. -/
abbrev RawParams := List (String × String)

/-- Model of `URLSearchParams.get`: value of the first pair with the given
key, `none` when the key is missing. -/
def rawGet (params : RawParams) (key : String) : Option String :=
  (params.find? (fun p => p.fst = key)).map Prod.snd

/-- Model of the `getParam` helper inside `parseFilterParams`:
`params.get(key) || undefined`, so an empty-string value collapses to
`undefined`. -/
def getParam (params : RawParams) (key : String) : Option String :=
  match rawGet params key with
  | some v => if v = "" then none else some v
  | none => none

/-- Model of `URLSearchParams.set`: overwrite the value at the first
occurrence of the key (dropping later duplicates), else append. -/
def setParam : RawParams → String → String → RawParams
  | [], key, v => [(key, v)]
  | (k, w) :: rest, key, v =>
    if k = key then (key, v) :: rest.filter (fun p => p.fst ≠ key)
    else (k, w) :: setParam rest key v

/-- The `FilterParams` interface of `lib/utils/filters.ts`; every field is
optional, `none` modelling JS `undefined`. -/
structure FilterParams where
  areaCode : Option String
  contentTypeId : Option String
  sort : Option String
  petFriendly : Option Bool
  petSize : Option (List String)
  keyword : Option String
  page : Option JsNumber
deriving DecidableEq, Repr

/-- Function `parseFilterParams` of `lib/utils/filters.ts`: decode raw query
parameters into a `FilterParams`.  Mirrors the source field by field,
including `petFriendly: petFriendly || undefined` (so a false flag decodes to
the absent value) and the bare `parseInt` on `page`. -/
def parseFilterParams (params : RawParams) : FilterParams :=
  let areaCode := (getParam params "areaCode").getD "1"
  let contentTypeId := getParam params "contentTypeId"
  let sort := (getParam params "sort").getD "latest"
  let petFriendly := getParam params "petFriendly" = some "true"
  let petSize := (getParam params "petSize").map
    (fun v => (jsSplit v ',').filter (fun t => t ≠ ""))
  let keyword := getParam params "keyword"
  let page :=
    match getParam params "page" with
    | some v => jsParseInt v
    | none => JsNumber.int 1
  { areaCode := some areaCode
    contentTypeId := contentTypeId
    sort := some sort
    petFriendly := if petFriendly then some true else none
    petSize := petSize
    keyword := keyword
    page := some page }

/-- Function `buildFilterParams` of `lib/utils/filters.ts`: encode a `FilterParams`
into query parameters, omitting default-valued fields unless `keepDefaults`.
Each `match`/`if` pair mirrors one truthiness-guarded block of the source, in
source order. -/
def buildFilterParams (filters : FilterParams) (keepDefaults : Bool) : RawParams :=
  let ps0 : RawParams := []
  let ps1 :=
    match filters.areaCode with
    | some a => if a ≠ "" then
        (if keepDefaults || a ≠ "1" then setParam ps0 "areaCode" a else ps0)
      else ps0
    | none => ps0
  let ps2 :=
    match filters.contentTypeId with
    | some c => if c ≠ "" then setParam ps1 "contentTypeId" c else ps1
    | none => ps1
  let ps3 :=
    match filters.sort with
    | some v => if v ≠ "" then
        (if keepDefaults || v ≠ "latest" then setParam ps2 "sort" v else ps2)
      else ps2
    | none => ps2
  let ps4 :=
    match filters.petFriendly with
    | some true => setParam ps3 "petFriendly" "true"
    | _ => ps3
  let ps5 :=
    match filters.petSize with
    | some l => if l.length > 0 then setParam ps4 "petSize" (jsJoin ',' l) else ps4
    | none => ps4
  let ps6 :=
    match filters.keyword with
    | some k => if k ≠ "" then setParam ps5 "keyword" k else ps5
    | none => ps5
  let ps7 :=
    match filters.page with
    | some p => if jsNumTruthy p && p ≠ JsNumber.int 1 then
        setParam ps6 "page" (jsNumToString p)
      else ps6
    | none => ps6
  ps7

/-- The fields of the `PetTourInfo` record (`lib/types/tour.ts`) read by the
verified operations; optional string fields model the optional API fields. -/
structure PetTourInfo where
  contentid : String
  chkpetleash : Option String
  chkpetsize : Option String
deriving DecidableEq, Repr

/-- Function `isPetFriendly` of `lib/utils/pet.ts`: a null record is not pet friendly,
otherwise `chkpetleash === 'Y'` decides. -/
def isPetFriendly : Option PetTourInfo → Bool
  | none => false
  | some petInfo => petInfo.chkpetleash = some "Y"

/-- One bidirectional case-insensitive substring test between a size-class
string and one filter token — the body of the `some` callback inside
`matchesPetSizeFilter`. -/
def sizeOverlap (petSize filterSize : String) : Bool :=
  jsIncludes (jsToLowerCase petSize) (jsToLowerCase filterSize) ||
  jsIncludes (jsToLowerCase filterSize) (jsToLowerCase petSize)

/-- Function `matchesPetSizeFilter` of `lib/utils/pet.ts`.  The `if sz = ""` branch
models the JS falsiness test `if (!petSize)`, which rejects both a missing
and an empty size-class string. -/
def matchesPetSizeFilter (petInfo : Option PetTourInfo) (filterSizes : List String) : Bool :=
  match petInfo with
  | none => false
  | some info =>
    if !(isPetFriendly (some info)) then false
    else if filterSizes = [] then true
    else
      match info.chkpetsize with
      | none => false
      | some sz =>
        if sz = "" then false
        else filterSizes.any (fun filterSize => sizeOverlap sz filterSize)

/-- The fields of a `TourItem` (`lib/types/tour.ts`) read by the verified
operations: the identity key, the display title, and the optional
last-modified timestamp string. -/
structure TourItem where
  contentid : String
  title : String
  modifiedtime : Option String
deriving DecidableEq, Repr

/-- The sort key of `sortToursByLatest`: `new Date(a.modifiedtime || 0)
.getTime()`.  A missing or empty timestamp yields the epoch value `0`; a
non-empty timestamp string is read through `dateParse`, which abstracts JS
`Date` parsing (assumed to yield a finite timestamp on the strings the
upstream serves). -/
def timeValue (dateParse : String → Int) : Option String → Int
  | none => 0
  | some s => if s = "" then 0 else dateParse s

/-- Sort relation of `sortToursByLatest`: `a` may precede `b` when `a`'s
timestamp is at least `b`'s (descending order, comparator
`timeB - timeA`). -/
def latestLe (dateParse : String → Int) (a b : TourItem) : Prop :=
  timeValue dateParse b.modifiedtime ≤ timeValue dateParse a.modifiedtime

instance (dateParse : String → Int) : DecidableRel (latestLe dateParse) :=
  fun a b => inferInstanceAs (Decidable (_ ≤ _))

instance (dateParse : String → Int) : IsTotal TourItem (latestLe dateParse) :=
  ⟨fun a b => le_total _ _⟩

instance (dateParse : String → Int) : IsTrans TourItem (latestLe dateParse) :=
  ⟨fun _ _ _ h1 h2 => le_trans h2 h1⟩

/-- Code-point comparison of char lists; the model of
`localeCompare(·, 'ko') ≤ 0` (Korean collation agrees with code-point order
on Hangul syllables and ASCII). -/
def charListLe : List Char → List Char → Bool
  | [], _ => true
  | _ :: _, [] => false
  | a :: l, b :: m => a.toNat < b.toNat || (a.toNat = b.toNat && charListLe l m)

/-- Sort relation of `sortToursByName`: ascending by title under the
collation model `charListLe` (the source comparator
`titleA.localeCompare(titleB, 'ko')`; `a.title || ''` is the identity since
`title` is a required string field). -/
def nameLe (a b : TourItem) : Prop :=
  charListLe a.title.data b.title.data = true

instance : DecidableRel nameLe :=
  fun a b => inferInstanceAs (Decidable (_ = _))

theorem charListLe_total (l m : List Char) :
    charListLe l m = true ∨ charListLe m l = true := by
  induction l generalizing m with
  | nil => left; rfl
  | cons a l ih =>
    cases m with
    | nil => right; rfl
    | cons b m =>
      rcases Nat.lt_trichotomy a.toNat b.toNat with h | h | h
      · left; simp [charListLe, h]
      · rcases ih m with h2 | h2
        · left; simp [charListLe, h, h2]
        · right; simp [charListLe, h.symm, h2]
      · right; simp [charListLe, h]

theorem charListLe_trans {l m n : List Char} (h1 : charListLe l m = true)
    (h2 : charListLe m n = true) : charListLe l n = true := by
  induction l generalizing m n with
  | nil => rfl
  | cons a l ih =>
    cases m with
    | nil => simp [charListLe] at h1
    | cons b m =>
      cases n with
      | nil => simp [charListLe] at h2
      | cons c n =>
        simp only [charListLe, Bool.or_eq_true, Bool.and_eq_true,
          decide_eq_true_eq] at h1 h2 ⊢
        rcases h1 with h1 | ⟨h1e, h1r⟩ <;> rcases h2 with h2 | ⟨h2e, h2r⟩
        · exact Or.inl (Nat.lt_trans h1 h2)
        · exact Or.inl (h2e ▸ h1)
        · exact Or.inl (h1e ▸ h2)
        · exact Or.inr ⟨h1e.trans h2e, ih h1r h2r⟩

instance : IsTotal TourItem nameLe :=
  ⟨fun a b => charListLe_total a.title.data b.title.data⟩

instance : IsTrans TourItem nameLe :=
  ⟨fun _ _ _ h1 h2 => charListLe_trans h1 h2⟩

/-- Function `sortToursByLatest` of `lib/utils/sort.ts`: stable sort, descending by
`timeValue`.  `List.insertionSort` models the ECMAScript stable
`Array.prototype.sort` applied to the spread copy `[...tours]`. -/
def sortToursByLatest (dateParse : String → Int) (tours : List TourItem) : List TourItem :=
  List.insertionSort (latestLe dateParse) tours

/-- Function `sortToursByName` of `lib/utils/sort.ts`: stable sort, ascending by title
under the Korean-collation model. -/
def sortToursByName (tours : List TourItem) : List TourItem :=
  List.insertionSort nameLe tours

/-- Function `sortTours` of `lib/utils/sort.ts`: dispatch on the sort option; the
`latest` case and the `default` case of the source `switch` both sort by
latest. -/
def sortTours (dateParse : String → Int) (tours : List TourItem)
    (sortOption : String) : List TourItem :=
  match sortOption with
  | "name" => sortToursByName tours
  | _ => sortToursByLatest dateParse tours

/-- A JS `Map<string, α>` as an ordered association list without duplicate
keys (insertion order is JS `Map` iteration order). -/
abbrev JsMap (α : Type) := List (String × α)

/-- Model of JS `Map.prototype.set`: update the value in place when the key
exists, else append. -/
def jsMapSet {α : Type} : JsMap α → String → α → JsMap α
  | [], k, v => [(k, v)]
  | (k1, v1) :: rest, k, v =>
    if k1 = k then (k, v) :: rest else (k1, v1) :: jsMapSet rest k v

/-- Model of JS `Map.prototype.get` (`none` for `undefined`). -/
def jsMapGet {α : Type} (m : JsMap α) (k : String) : Option α :=
  (m.find? (fun p => p.fst = k)).map Prod.snd

/-- The per-item enrichment closure of `loadMoreTours` / `HomePage`: try the
pet-info lookup and catch any failure, recording `null` for that item. -/
def fetchPetInfoEntry (lookup : String → Except String (Option PetTourInfo))
    (tour : TourItem) : String × Option PetTourInfo :=
  match lookup tour.contentid with
  | Except.ok petInfo => (tour.contentid, petInfo)
  | Except.error _ => (tour.contentid, none)

/-- The enrichment fan-out of `loadMoreTours` / `HomePage`: one guarded
lookup per item (all promises fulfil because each failure is caught), then
`Map.set` of every settled entry.  Total by construction: no lookup failure
escapes this stage. -/
def buildPetInfoMap (lookup : String → Except String (Option PetTourInfo))
    (tours : List TourItem) : JsMap (Option PetTourInfo) :=
  (tours.map (fetchPetInfoEntry lookup)).foldl
    (fun m e => jsMapSet m e.fst e.snd) []

/-- The post-filter predicate of `loadMoreTours` / `HomePage`: resolve the
enrichment entry (`petInfoMap.get(id) || null`), require pet-friendliness,
and additionally `matchesPetSizeFilter` when a size filter is selected. -/
def retainTour (m : JsMap (Option PetTourInfo)) (petSize : List String)
    (tour : TourItem) : Bool :=
  let petInfo := (jsMapGet m tour.contentid).join
  let isPet := isPetFriendly petInfo
  if petSize.length > 0 then isPet && matchesPetSizeFilter petInfo petSize
  else isPet

/-- Result of one upstream page fetch (`getAreaBasedList` / `searchKeyword`),
as consumed by `loadMoreTours`. -/
structure PageResult where
  items : List TourItem
  totalCount : Nat
deriving DecidableEq, Repr

/-- The remote tour API consumed by `loadMoreTours`, abstracted as fallible
functions: `searchKeyword keyword areaCode contentTypeId numOfRows pageNo`,
`getAreaBasedList areaCode contentTypeId numOfRows pageNo`, and the per-item
`getDetailPetTour` (whose `ok none` models the not-found-as-absent result). -/
structure TourApi where
  searchKeyword : String → Option String → Option String → Nat → Nat →
    Except String PageResult
  getAreaBasedList : String → Option String → Nat → Nat →
    Except String PageResult
  getDetailPetTour : String → Except String (Option PetTourInfo)

/-- The `LoadMoreToursParams` interface of `actions/load-tours.ts`. -/
structure LoadMoreToursParams where
  pageNo : Nat
  areaCode : Option String
  contentTypeId : Option String
  keyword : Option String
  petFriendly : Option Bool
  petSize : Option (List String)
  sort : Option String
deriving Repr

/-- The `LoadMoreToursResult` interface of `actions/load-tours.ts` (the
`petInfoMap` field is the serialized entry array). -/
structure LoadMoreToursResult where
  items : List TourItem
  petInfoMap : JsMap (Option PetTourInfo)
  totalCount : Nat
  hasMore : Bool
deriving DecidableEq, Repr

/-- The fixed opaque message thrown by the catch-all of `loadMoreTours`. -/
def loadErrorMessage : String := "관광지 목록을 불러오는 중 오류가 발생했습니다."

/-- The `loadMoreTours` server action of `actions/load-tours.ts`: choose
search or region browse by keyword truthiness, optionally enrich and
post-filter, sort, compute `hasMore`, and collapse any escaping failure into
the fixed `loadErrorMessage` (the outer `try`/`catch`).  `dateParse`
abstracts JS `Date` parsing used by the sort stage. -/
def loadMoreTours (dateParse : String → Int) (api : TourApi)
    (params : LoadMoreToursParams) : Except String LoadMoreToursResult :=
  let areaCode := params.areaCode.getD "1"
  let petFriendly := params.petFriendly.getD false
  let petSize := params.petSize.getD []
  let sort := params.sort.getD "latest"
  let numOfRows := 20
  let fetched : Except String PageResult :=
    match params.keyword with
    | some kw =>
      if kw ≠ "" then
        api.searchKeyword kw (if areaCode ≠ "1" then some areaCode else none)
          params.contentTypeId numOfRows params.pageNo
      else api.getAreaBasedList areaCode params.contentTypeId numOfRows params.pageNo
    | none => api.getAreaBasedList areaCode params.contentTypeId numOfRows params.pageNo
  match fetched with
  | Except.error _ => Except.error loadErrorMessage
  | Except.ok r =>
    let enriched :=
      if petFriendly && r.items.length > 0 then
        let m := buildPetInfoMap api.getDetailPetTour r.items
        (r.items.filter (retainTour m petSize), m)
      else (r.items, [])
    Except.ok
      { items := sortTours dateParse enriched.fst sort
        petInfoMap := enriched.snd
        totalCount := r.totalCount
        hasMore := decide (params.pageNo * numOfRows < r.totalCount) }

/-- The client-resident state of the `useInfiniteTours` hook: the accumulated
items, the enrichment map, the page counter, the reported total, the loading
flag and the last error. -/
structure ToursState where
  allTours : List TourItem
  petInfoMap : JsMap (Option PetTourInfo)
  currentPage : Nat
  totalCount : Nat
  isLoading : Bool
  error : Option String
deriving DecidableEq, Repr

/-- The computed `hasMore` of `useInfiniteTours`:
`currentPage * numOfRows < totalCount` with `numOfRows = 20`. -/
def hasMore (s : ToursState) : Bool :=
  decide (s.currentPage * 20 < s.totalCount)

/-- Merge of a freshly loaded enrichment entry array into the existing map
(the `setPetInfoMap` updater): every entry is `Map.set`, so a new value for a
`contentId` overwrites the old one. -/
def mergePetInfoMap (prev : JsMap (Option PetTourInfo))
    (entries : JsMap (Option PetTourInfo)) : JsMap (Option PetTourInfo) :=
  entries.foldl (fun m e => jsMapSet m e.fst e.snd) prev

/-- Events of the pagination state machine: a `loadMore()` invocation, and
the completion of the in-flight request with either the action's result or
its thrown error. -/
inductive LoadMoreEvent where
  | invoke : LoadMoreEvent
  | completeOk : LoadMoreToursResult → LoadMoreEvent
  | completeErr : String → LoadMoreEvent

/-- One step of the `loadMore` state machine.  The second component counts
upstream page requests started by the step.  `invoke` is the guard and the
transition to `Loading` (`setIsLoading(true); setError(null)`); `completeOk`
is the success continuation (append items, merge the map, advance the page —
both branches of the source ternary advance by one — and adopt the reported
total); `completeErr` is the `catch`/`finally` path. -/
def loadMoreStep (s : ToursState) : LoadMoreEvent → ToursState × Nat
  | LoadMoreEvent.invoke =>
    if s.isLoading || !(hasMore s) then (s, 0)
    else ({ s with isLoading := true, error := none }, 1)
  | LoadMoreEvent.completeOk r =>
    ({ s with
        allTours := s.allTours ++ r.items
        petInfoMap := mergePetInfoMap s.petInfoMap r.petInfoMap
        currentPage := s.currentPage + 1
        totalCount := r.totalCount
        isLoading := false }, 0)
  | LoadMoreEvent.completeErr msg =>
    ({ s with error := some msg, isLoading := false }, 0)

/-- Run a sequence of state-machine events, accumulating the number of
upstream page requests started. -/
def runEvents (s : ToursState) : List LoadMoreEvent → ToursState × Nat
  | [] => (s, 0)
  | e :: es =>
    let r := loadMoreStep s e
    let rest := runEvents r.fst es
    (rest.fst, r.snd + rest.snd)

/-! ### Codec helper lemmas -/

theorem jsSplit_jsJoin (l : List String) (h0 : l ≠ [])
    (h1 : ∀ t ∈ l, ',' ∉ t.data) : jsSplit (jsJoin ',' l) ',' = l := by
  unfold jsSplit jsJoin
  have hd : (String.mk (List.intercalate [','] (l.map String.data))).data
      = List.intercalate [','] (l.map String.data) := rfl
  rw [hd]
  rw [List.splitOn_intercalate]
  · rw [List.map_map]
    have he : ∀ t ∈ l, (String.mk ∘ String.data) t = id t := fun t _ => rfl
    rw [List.map_congr_left he, List.map_id]
  · intro cs hcs
    obtain ⟨t, ht, rfl⟩ := List.mem_map.mp hcs
    exact h1 t ht
  · simpa using h0

theorem jsJoin_ne_empty (l : List String) (h0 : l ≠ [])
    (h1 : ∀ t ∈ l, t ≠ "" ∧ ',' ∉ t.data) : jsJoin ',' l ≠ "" := by
  intro he
  have hs := jsSplit_jsJoin l h0 (fun t ht => (h1 t ht).2)
  rw [he] at hs
  have hempty : jsSplit "" ',' = [""] := by decide
  rw [hempty] at hs
  have hmem : ("" : String) ∈ l := by
    rw [← hs]; exact List.mem_singleton_self ""
  exact (h1 "" hmem).1 rfl

/-- C1: codec round-trip.  For every `FilterParams` whose omitted fields
carry their documented defaults — `areaCode = "1"`, `sort = "latest"`,
`page = 1`, and the pet flag in its default absent-meaning-false form (the
decoder never materialises an explicit `false`) — while the remaining fields
are either absent or carry a well-formed non-default value (non-empty
strings; a non-empty comma-free token list for `petSize`), decoding the
parameters produced by encoding with `keepDefaults = false` yields the same
`FilterParams`. -/
theorem filter_codec_roundtrip (s : FilterParams)
    (hArea : s.areaCode = some "1")
    (hSort : s.sort = some "latest")
    (hPage : s.page = some (JsNumber.int 1))
    (hPet : s.petFriendly = none)
    (hCt : s.contentTypeId = none ∨ ∃ c, s.contentTypeId = some c ∧ c ≠ "")
    (hKw : s.keyword = none ∨ ∃ k, s.keyword = some k ∧ k ≠ "")
    (hPs : s.petSize = none ∨ ∃ l, s.petSize = some l ∧ l ≠ [] ∧
      ∀ t ∈ l, t ≠ "" ∧ ',' ∉ t.data) :
    parseFilterParams (buildFilterParams s false) = s := by
  obtain ⟨a, ct, so, pf, ps, kw, pg⟩ := s
  simp only at hArea hSort hPage hPet hCt hKw hPs
  subst hArea hSort hPage hPet
  have step : ∀ ct2 kw2 ps2, (ct2 = none ∨ ∃ c, ct2 = some c ∧ c ≠ "") →
      (kw2 = none ∨ ∃ k, kw2 = some k ∧ k ≠ "") →
      (ps2 = none ∨ ∃ l, ps2 = some l ∧ l ≠ [] ∧
        ∀ t ∈ l, t ≠ "" ∧ ',' ∉ t.data) →
      parseFilterParams (buildFilterParams
        ⟨some "1", ct2, some "latest", none, ps2, kw2, some (JsNumber.int 1)⟩
        false) =
      ⟨some "1", ct2, some "latest", none, ps2, kw2, some (JsNumber.int 1)⟩ := by
    rintro ct2 kw2 ps2 hct hkw hps
    rcases hps with rfl | ⟨l, rfl, hl0, hltok⟩
    · rcases hct with rfl | ⟨c, rfl, hc⟩ <;> rcases hkw with rfl | ⟨k, rfl, hk⟩ <;>
        simp_all [buildFilterParams, parseFilterParams, getParam, rawGet, setParam]
    · have hne := jsJoin_ne_empty l hl0 hltok
      have hsp := jsSplit_jsJoin l hl0 (fun t ht => (hltok t ht).2)
      have hfil : l.filter (fun t => t ≠ "") = l :=
        List.filter_eq_self.mpr (fun t ht => by simpa using (hltok t ht).1)
      have hlen : 0 < l.length := List.length_pos.mpr hl0
      rcases hct with rfl | ⟨c, rfl, hc⟩ <;> rcases hkw with rfl | ⟨k, rfl, hk⟩ <;>
        simp_all [buildFilterParams, parseFilterParams, getParam, rawGet, setParam]
  exact step ct kw ps hCt hKw hPs

/-- C1 witness: the round-trip theorem applied to one concrete
`FilterParams` with all default-omitted fields at their defaults and
non-default content type, pet sizes and keyword. -/
theorem filter_codec_roundtrip_witness :
    parseFilterParams (buildFilterParams
      ⟨some "1", some "12", some "latest", none, some ["소형견", "중형견"],
        some "해변", some (JsNumber.int 1)⟩ false) =
    ⟨some "1", some "12", some "latest", none, some ["소형견", "중형견"],
      some "해변", some (JsNumber.int 1)⟩ :=
  filter_codec_roundtrip _ rfl rfl rfl rfl
    (Or.inr ⟨"12", rfl, by decide⟩)
    (Or.inr ⟨"해변", rfl, by decide⟩)
    (Or.inr ⟨["소형견", "중형견"], rfl, by decide, by decide⟩)

/-- C8 counterexample: on the raw input `page=abc` the decoder yields
`NaN`, not the default `1` — `parseInt` failure is not replaced by the
default. -/
theorem page_parse_failure_counterexample :
    (parseFilterParams [("page", "abc")]).page = some JsNumber.nan ∧
    (parseFilterParams [("page", "abc")]).page ≠ some (JsNumber.int 1) := by
  decide

/-- C8 amended: the decoder parses a present (non-empty) `page` value with
base-10 `parseInt` and keeps its result — `NaN` when the value does not
parse — while the default `1` is used exactly when the key is absent or its
value is the empty string; decoding never throws (the decoder is a total
function). -/
theorem page_decode_semantics :
    (∀ (params : RawParams) (v : String), getParam params "page" = some v →
      (parseFilterParams params).page = some (jsParseInt v)) ∧
    (∀ params : RawParams, getParam params "page" = none →
      (parseFilterParams params).page = some (JsNumber.int 1)) := by
  constructor
  · intro params v hv
    simp [parseFilterParams, hv]
  · intro params hv
    simp [parseFilterParams, hv]

/-- C8 amended witness: the amended page rule applied to the concrete raw
input `page=abc`. -/
theorem page_decode_semantics_witness :
    (parseFilterParams [("page", "abc")]).page = some JsNumber.nan :=
  page_decode_semantics.1 [("page", "abc")] "abc" rfl

/-- C9 counterexample: on the raw input `petSize=,` every comma-split
segment is empty, yet the decoded `petSize` is the present empty list, not
the absent value. -/
theorem petsize_empty_tokens_counterexample :
    (parseFilterParams [("petSize", ",")]).petSize = some [] ∧
    (parseFilterParams [("petSize", ",")]).petSize ≠ none := by
  decide

/-- C9 amended: the decoder splits a present (non-empty) `petSize` value on
commas and drops empty segments, keeping the resulting list even when it is
empty (e.g. the raw value `,` decodes to the present empty list); the absent
value arises exactly when the key is missing or its value is the empty
string. -/
theorem petsize_decode_semantics :
    (∀ (params : RawParams) (v : String), getParam params "petSize" = some v →
      (parseFilterParams params).petSize =
        some ((jsSplit v ',').filter (fun t => t ≠ ""))) ∧
    (∀ params : RawParams, getParam params "petSize" = none →
      (parseFilterParams params).petSize = none) := by
  constructor
  · intro params v hv
    simp [parseFilterParams, hv]
  · intro params hv
    simp [parseFilterParams, hv]

/-- C9 amended witness: the amended petSize rule applied to the concrete raw
input `petSize=,`, whose split-and-filter result is the empty list. -/
theorem petsize_decode_semantics_witness :
    (parseFilterParams [("petSize", ",")]).petSize = some [] :=
  petsize_decode_semantics.1 [("petSize", ",")] "," rfl

/-! ### Pagination state machine -/

theorem runEvents_invoke_while_loading (s : ToursState) (h : s.isLoading = true) :
    ∀ k, runEvents s (List.replicate k LoadMoreEvent.invoke) = (s, 0) := by
  intro k
  induction k with
  | zero => rfl
  | succ k ih =>
    rw [List.replicate_succ]
    simp only [runEvents, loadMoreStep, h]
    simpa using ih

/-- C3: re-entrancy guard.  An invocation while the machine is `Loading`, or
while `hasMore` is false, is a silent no-op that leaves the state untouched
and starts no upstream request; and however many back-to-back invocations
arrive while the first request is still pending (no completion event in
between), exactly one upstream page request is started. -/
theorem loadMore_reentrancy_guard :
    (∀ s : ToursState, s.isLoading = true ∨ hasMore s = false →
      loadMoreStep s LoadMoreEvent.invoke = (s, 0)) ∧
    (∀ (s : ToursState) (k : Nat), s.isLoading = false → hasMore s = true →
      (runEvents s (List.replicate (k + 1) LoadMoreEvent.invoke)).snd = 1) := by
  constructor
  · intro s h
    rcases h with h | h <;> simp [loadMoreStep, h]
  · intro s k h1 h2
    rw [List.replicate_succ]
    simp only [runEvents]
    rw [show loadMoreStep s LoadMoreEvent.invoke =
        ({ s with isLoading := true, error := none }, 1) by
      simp [loadMoreStep, h1, h2]]
    rw [runEvents_invoke_while_loading _ rfl k]
    rfl

/-- C3 witness: from a concrete idle state with more pages available, two
back-to-back invocations start exactly one upstream request, and an
invocation on a concrete loading state is a no-op. -/
theorem loadMore_reentrancy_guard_witness :
    (runEvents ⟨[], [], 1, 100, false, none⟩
      (List.replicate 2 LoadMoreEvent.invoke)).snd = 1 ∧
    loadMoreStep ⟨[], [], 1, 100, true, none⟩ LoadMoreEvent.invoke =
      (⟨[], [], 1, 100, true, none⟩, 0) :=
  ⟨loadMore_reentrancy_guard.2 ⟨[], [], 1, 100, false, none⟩ 1 rfl rfl,
   loadMore_reentrancy_guard.1 ⟨[], [], 1, 100, true, none⟩ (Or.inl rfl)⟩

/-- C4: failure atomicity.  When the request started by a `loadMore`
invocation fails, the full invoke-then-fail cycle starts exactly one
upstream request, and the resulting state equals the starting state except
that the error is recorded and the machine is idle again — the accumulated
items, the enrichment map, `currentPage` and `totalCount` are untouched —
and a further invocation from that state starts a request again (the
operation is retriable). -/
theorem loadMore_failure_atomic (s : ToursState) (msg : String)
    (h1 : s.isLoading = false) (h2 : hasMore s = true) :
    (runEvents s [LoadMoreEvent.invoke, LoadMoreEvent.completeErr msg]).snd = 1 ∧
    (runEvents s [LoadMoreEvent.invoke, LoadMoreEvent.completeErr msg]).fst =
      { s with error := some msg, isLoading := false } ∧
    (loadMoreStep
      (runEvents s [LoadMoreEvent.invoke, LoadMoreEvent.completeErr msg]).fst
      LoadMoreEvent.invoke).snd = 1 := by
  have hstep : runEvents s [LoadMoreEvent.invoke, LoadMoreEvent.completeErr msg] =
      ({ s with error := some msg, isLoading := false }, 1) := by
    simp only [runEvents]
    rw [show loadMoreStep s LoadMoreEvent.invoke =
        ({ s with isLoading := true, error := none }, 1) by
      simp [loadMoreStep, h1, h2]]
    rfl
  refine ⟨by rw [hstep], by rw [hstep], ?_⟩
  rw [hstep]
  have hm : hasMore { s with error := some msg, isLoading := false } = true := h2
  simp [loadMoreStep, hm]

/-- C4 witness: the failure-atomicity theorem applied to a concrete state
holding one accumulated item and one enrichment entry. -/
theorem loadMore_failure_atomic_witness :
    (runEvents ⟨[⟨"c1", "t", none⟩], [("c1", none)], 1, 100, false, none⟩
      [LoadMoreEvent.invoke, LoadMoreEvent.completeErr "boom"]).fst =
      ⟨[⟨"c1", "t", none⟩], [("c1", none)], 1, 100, false, some "boom"⟩ :=
  (loadMore_failure_atomic ⟨[⟨"c1", "t", none⟩], [("c1", none)], 1, 100, false, none⟩
    "boom" rfl rfl).2.1

/-- C5: `hasMore` arithmetic.  The hook's computed `hasMore` is true exactly
when `currentPage * 20 < totalCount` (page size fixed at 20), and the
`hasMore` field of every successful `loadMoreTours` result is decided by the
same rule at the requested `pageNo` against the returned `totalCount`. -/
theorem hasMore_arithmetic :
    (∀ s : ToursState, hasMore s = true ↔ s.currentPage * 20 < s.totalCount) ∧
    (∀ (dateParse : String → Int) (api : TourApi) (params : LoadMoreToursParams)
      (r : LoadMoreToursResult),
      loadMoreTours dateParse api params = Except.ok r →
      r.hasMore = decide (params.pageNo * 20 < r.totalCount)) := by
  constructor
  · intro s
    simp [hasMore]
  · intro dp api params r h
    simp only [loadMoreTours] at h
    split at h
    · simp at h
    · injection h with h2
      rw [← h2]

/-- A trivially succeeding concrete API used by witnesses: every page fetch
returns an empty page reporting 55 total items, and every pet lookup returns
the absent record. -/
def stubApi : TourApi :=
  { searchKeyword := fun _ _ _ _ _ => Except.ok { items := [], totalCount := 55 }
    getAreaBasedList := fun _ _ _ _ => Except.ok { items := [], totalCount := 55 }
    getDetailPetTour := fun _ => Except.ok none }

/-- Concrete browse-mode parameters requesting page 2, used by witnesses. -/
def page2Params : LoadMoreToursParams :=
  { pageNo := 2, areaCode := none, contentTypeId := none, keyword := none
    petFriendly := none, petSize := none, sort := none }

/-- C5 witness: the `hasMore` rule evaluated on a concrete hook state and on
the concrete result of a successful `loadMoreTours` call for page 2 of 55
items. -/
theorem hasMore_arithmetic_witness :
    hasMore ⟨[], [], 1, 100, false, none⟩ = true ∧
    ({ items := [], petInfoMap := [], totalCount := 55, hasMore := true } :
      LoadMoreToursResult).hasMore = decide (2 * 20 < 55) :=
  ⟨(hasMore_arithmetic.1 ⟨[], [], 1, 100, false, none⟩).mpr (by decide),
   hasMore_arithmetic.2 (fun _ => 0) stubApi page2Params
     { items := [], petInfoMap := [], totalCount := 55, hasMore := true } rfl⟩

/-! ### Enrichment stage -/

/-- The settled value of one guarded pet-info lookup: the looked-up record on
success, the absent record when the lookup threw. -/
def settledPetInfo (lookup : String → Except String (Option PetTourInfo))
    (contentId : String) : Option PetTourInfo :=
  match lookup contentId with
  | Except.ok petInfo => petInfo
  | Except.error _ => none

theorem fetchPetInfoEntry_fst (lookup : String → Except String (Option PetTourInfo))
    (t : TourItem) : (fetchPetInfoEntry lookup t).fst = t.contentid := by
  unfold fetchPetInfoEntry
  split <;> rfl

theorem fetchPetInfoEntry_eq (lookup : String → Except String (Option PetTourInfo))
    (t : TourItem) :
    fetchPetInfoEntry lookup t = (t.contentid, settledPetInfo lookup t.contentid) := by
  unfold fetchPetInfoEntry settledPetInfo
  split <;> simp_all

theorem jsMapSet_of_not_mem {α : Type} (m : JsMap α) (k : String) (v : α)
    (h : k ∉ m.map Prod.fst) : jsMapSet m k v = m ++ [(k, v)] := by
  induction m with
  | nil => rfl
  | cons e rest ih =>
    obtain ⟨k1, v1⟩ := e
    simp only [List.map_cons, List.mem_cons, not_or] at h
    simp [jsMapSet, Ne.symm h.1, ih h.2]

theorem foldl_jsMapSet_append {α : Type} (es : List (String × α)) (m : JsMap α)
    (hdisj : ∀ e ∈ es, e.fst ∉ m.map Prod.fst)
    (hnd : (es.map Prod.fst).Nodup) :
    es.foldl (fun acc e => jsMapSet acc e.fst e.snd) m = m ++ es := by
  induction es generalizing m with
  | nil => simp
  | cons e rest ih =>
    rw [List.foldl_cons,
      jsMapSet_of_not_mem m e.fst e.snd (hdisj e (List.mem_cons_self e rest))]
    simp only [List.map_cons, List.nodup_cons] at hnd
    rw [ih (m ++ [(e.fst, e.snd)]) ?hd hnd.2]
    · simp
    case hd =>
      intro f hf
      simp only [List.map_append, List.mem_append, List.map_cons, List.map_nil,
        List.mem_singleton, not_or]
      refine ⟨hdisj f (List.mem_cons_of_mem e hf), ?_⟩
      intro hfe
      exact hnd.1 (hfe ▸ List.mem_map_of_mem Prod.fst hf)

theorem buildPetInfoMap_eq (lookup : String → Except String (Option PetTourInfo))
    (tours : List TourItem) (h : (tours.map TourItem.contentid).Nodup) :
    buildPetInfoMap lookup tours = tours.map (fetchPetInfoEntry lookup) := by
  have hfst : (tours.map (fetchPetInfoEntry lookup)).map Prod.fst =
      tours.map TourItem.contentid := by
    rw [List.map_map]
    exact List.map_congr_left (fun t _ => fetchPetInfoEntry_fst lookup t)
  unfold buildPetInfoMap
  rw [foldl_jsMapSet_append _ [] (by simp) (hfst ▸ h)]
  simp

theorem jsMapGet_map_entry (lookup : String → Except String (Option PetTourInfo)) :
    ∀ (tours : List TourItem) (t : TourItem), t ∈ tours →
      jsMapGet (tours.map (fetchPetInfoEntry lookup)) t.contentid =
        some (settledPetInfo lookup t.contentid) := by
  intro tours
  induction tours with
  | nil => intro t ht; cases ht
  | cons u rest ih =>
    intro t ht
    by_cases he : u.contentid = t.contentid
    · simp only [List.map_cons, jsMapGet, List.find?,
        fetchPetInfoEntry_eq lookup u, he]
      simp [he]
    · rcases List.mem_cons.mp ht with rfl | htr
      · exact absurd rfl he
      · have hrec := ih t htr
        simp only [List.map_cons, jsMapGet, List.find?, fetchPetInfoEntry_eq lookup u]
        rw [show decide (u.contentid = t.contentid) = false by simpa using he]
        simpa [jsMapGet] using hrec

/-- C2: enrichment resilience.  For a page of items with distinct content
ids processed by the enrichment fan-out, whatever subset of the per-item
lookups throws: the stage always produces a map (it is a total function —
every failure is caught inside the per-item closure, so no exception escapes),
the map has exactly one entry per input item, each entry holds the settled
lookup value, and the entry of every item whose lookup threw is the absent
record.  Moreover the whole `loadMoreTours` action succeeds whenever the base
page fetch succeeds, regardless of pet-lookup failures. -/
theorem enrichment_resilience (lookup : String → Except String (Option PetTourInfo))
    (tours : List TourItem) (h : (tours.map TourItem.contentid).Nodup) :
    (buildPetInfoMap lookup tours).length = tours.length ∧
    (∀ t ∈ tours, jsMapGet (buildPetInfoMap lookup tours) t.contentid =
      some (settledPetInfo lookup t.contentid)) ∧
    (∀ t ∈ tours, ∀ e, lookup t.contentid = Except.error e →
      jsMapGet (buildPetInfoMap lookup tours) t.contentid = some none) ∧
    (∀ (dateParse : String → Int) (api : TourApi) (params : LoadMoreToursParams),
      (∀ kw a ct n p, ∃ pr, api.searchKeyword kw a ct n p = Except.ok pr) →
      (∀ a ct n p, ∃ pr, api.getAreaBasedList a ct n p = Except.ok pr) →
      ∃ r, loadMoreTours dateParse api params = Except.ok r) := by
  refine ⟨?_, ?_, ?_, ?_⟩
  · rw [buildPetInfoMap_eq lookup tours h]
    simp
  · intro t ht
    rw [buildPetInfoMap_eq lookup tours h]
    exact jsMapGet_map_entry lookup tours t ht
  · intro t ht e he
    rw [buildPetInfoMap_eq lookup tours h, jsMapGet_map_entry lookup tours t ht]
    simp [settledPetInfo, he]
  · intro dp api params hS hA
    simp only [loadMoreTours]
    rcases hk : params.keyword with _ | kw <;> simp only [hk]
    · obtain ⟨pr, hpr⟩ := hA (params.areaCode.getD "1") params.contentTypeId 20
        params.pageNo
      rw [hpr]
      exact ⟨_, rfl⟩
    · by_cases hkw : kw = ""
      · subst hkw
        simp only [ne_eq, not_true_eq_false, if_false, ite_false, reduceIte]
        obtain ⟨pr, hpr⟩ := hA (params.areaCode.getD "1") params.contentTypeId 20
          params.pageNo
        rw [hpr]
        exact ⟨_, rfl⟩
      · simp only [ne_eq, hkw, not_false_eq_true, if_true, ite_true, reduceIte]
        obtain ⟨pr, hpr⟩ := hS kw
          (if params.areaCode.getD "1" ≠ "1" then some (params.areaCode.getD "1") else none)
          params.contentTypeId 20 params.pageNo
        rw [hpr]
        exact ⟨_, rfl⟩

/-- The five-item page used by the C2 witness. -/
def tours5 : List TourItem :=
  [⟨"c1", "t1", none⟩, ⟨"c2", "t2", none⟩, ⟨"c3", "t3", none⟩,
   ⟨"c4", "t4", none⟩, ⟨"c5", "t5", none⟩]

/-- A concrete lookup that throws for exactly one of the five content ids. -/
def lookup5 : String → Except String (Option PetTourInfo) :=
  fun contentId =>
    if contentId = "c3" then Except.error "HTTP 500"
    else Except.ok (some { contentid := contentId
                           chkpetleash := some "Y"
                           chkpetsize := some "소형" })

/-- C2 witness: on a concrete page of 5 items where exactly one lookup
throws, the enrichment map has 5 entries, the failed item's entry is absent,
and a successful item's entry is its real record. -/
theorem enrichment_resilience_witness :
    (buildPetInfoMap lookup5 tours5).length = 5 ∧
    jsMapGet (buildPetInfoMap lookup5 tours5) "c3" = some none ∧
    jsMapGet (buildPetInfoMap lookup5 tours5) "c1" =
      some (some { contentid := "c1"
                   chkpetleash := some "Y"
                   chkpetsize := some "소형" }) := by
  have h := enrichment_resilience lookup5 tours5 (by decide)
  refine ⟨h.1, ?_, ?_⟩
  · exact h.2.2.1 ⟨"c3", "t3", none⟩ (by decide) "HTTP 500" rfl
  · exact h.2.1 ⟨"c1", "t1", none⟩ (by decide)

theorem retainTour_eq (m : JsMap (Option PetTourInfo)) (sizes : List String)
    (t : TourItem) (pi : Option PetTourInfo)
    (hj : (jsMapGet m t.contentid).join = pi) :
    retainTour m sizes t =
      if sizes.length > 0 then isPetFriendly pi && matchesPetSizeFilter pi sizes
      else isPetFriendly pi := by
  unfold retainTour
  rw [hj]

/-- C6: post-filter retention.  Over any enrichment map and size-filter
request: the surviving items form a sublist of the input page (input order
preserved); an item whose resolved record is absent is dropped; with no size
filter an item survives exactly when its resolved record grants leash
permission (`chkpetleash = "Y"`); leash permission is necessary in general;
with an active size filter an item whose record lacks a size class is
dropped, and a surviving item's size class overlaps at least one requested
token under the bidirectional case-insensitive substring test; in particular
a leash-permitted item with size class `소형` survives the request
`["소형견"]`. -/
theorem petfilter_retention (m : JsMap (Option PetTourInfo)) (sizes : List String)
    (tours : List TourItem) (t : TourItem) :
    (tours.filter (retainTour m sizes)).Sublist tours ∧
    ((jsMapGet m t.contentid).join = none → retainTour m sizes t = false) ∧
    (retainTour m [] t = true ↔
      ∃ info, (jsMapGet m t.contentid).join = some info ∧
        info.chkpetleash = some "Y") ∧
    (retainTour m sizes t = true →
      ∃ info, (jsMapGet m t.contentid).join = some info ∧
        info.chkpetleash = some "Y") ∧
    (∀ info, sizes ≠ [] → (jsMapGet m t.contentid).join = some info →
      info.chkpetsize = none → retainTour m sizes t = false) ∧
    (∀ info, sizes ≠ [] → (jsMapGet m t.contentid).join = some info →
      retainTour m sizes t = true →
      ∃ sz, info.chkpetsize = some sz ∧
        sizes.any (fun filterSize => sizeOverlap sz filterSize) = true) ∧
    (∀ info, (jsMapGet m t.contentid).join = some info →
      info.chkpetleash = some "Y" → info.chkpetsize = some "소형" →
      retainTour m ["소형견"] t = true) := by
  refine ⟨List.filter_sublist tours, ?_, ?_, ?_, ?_, ?_, ?_⟩
  · intro hj
    rw [retainTour_eq m sizes t none hj]
    simp [isPetFriendly, matchesPetSizeFilter]
  · cases hj : (jsMapGet m t.contentid).join with
    | none =>
      rw [retainTour_eq m [] t none hj]
      simp [isPetFriendly, hj]
    | some info =>
      rw [retainTour_eq m [] t (some info) hj]
      simp [isPetFriendly, hj]
  · intro hr
    cases hj : (jsMapGet m t.contentid).join with
    | none =>
      rw [retainTour_eq m sizes t none hj] at hr
      simp [isPetFriendly] at hr
    | some info =>
      rw [retainTour_eq m sizes t (some info) hj] at hr
      refine ⟨info, rfl, ?_⟩
      by_cases hlen : sizes.length > 0
      · simp only [hlen, if_pos, Bool.and_eq_true] at hr
        simpa [isPetFriendly] using hr.1
      · simp only [hlen, if_neg] at hr
        simpa [isPetFriendly] using hr
  · intro info hne hj hsz
    have hlen : sizes.length > 0 := List.length_pos.mpr hne
    rw [retainTour_eq m sizes t (some info) hj]
    simp [hlen, matchesPetSizeFilter, hsz, hne]
  · intro info hne hj hr
    have hlen : sizes.length > 0 := List.length_pos.mpr hne
    rw [retainTour_eq m sizes t (some info) hj] at hr
    simp only [hlen, if_pos, Bool.and_eq_true] at hr
    have hm := hr.2
    simp only [matchesPetSizeFilter] at hm
    rw [if_neg (by simp [hr.1])] at hm
    rw [if_neg hne] at hm
    rcases hsz2 : info.chkpetsize with _ | sz
    · rw [hsz2] at hm
      simp at hm
    · rw [hsz2] at hm
      dsimp only at hm
      refine ⟨sz, rfl, ?_⟩
      by_cases hsze : sz = ""
      · rw [if_pos hsze] at hm
        cases hm
      · rwa [if_neg hsze] at hm
  · intro info hj hleash hsz
    rw [retainTour_eq m ["소형견"] t (some info) hj]
    simp only [matchesPetSizeFilter, isPetFriendly, hleash, hsz]
    decide

/-- C6 witness: the retention theorem applied to a concrete enrichment map
holding a leash-permitted record with size class `소형` for content id `x`:
the item survives the request `["소형견"]`, while an item with no map entry
is dropped. -/
theorem petfilter_retention_witness :
    retainTour [("x", some ⟨"x", some "Y", some "소형"⟩)] ["소형견"]
      ⟨"x", "t", none⟩ = true ∧
    retainTour [("x", some ⟨"x", some "Y", some "소형"⟩)] ["소형견"]
      ⟨"y", "u", none⟩ = false :=
  ⟨(petfilter_retention [("x", some ⟨"x", some "Y", some "소형"⟩)] ["소형견"]
      [] ⟨"x", "t", none⟩).2.2.2.2.2.2
      ⟨"x", some "Y", some "소형"⟩ rfl rfl rfl,
   (petfilter_retention [("x", some ⟨"x", some "Y", some "소형"⟩)] ["소형견"]
      [] ⟨"y", "u", none⟩).2.1 rfl⟩

/-! ### Sort stage -/

/-- Concrete item `가` with timestamp string `T1` (C7 example). -/
def tourGa : TourItem := { contentid := "ga", title := "가", modifiedtime := some "T1" }

/-- Concrete item `나` with no timestamp (C7 example). -/
def tourNa : TourItem := { contentid := "na", title := "나", modifiedtime := none }

/-- Concrete item `다` with timestamp string `T2` (C7 example). -/
def tourDa : TourItem := { contentid := "da", title := "다", modifiedtime := some "T2" }

/-- C7: sort semantics.  For every item list and every `Date` valuation:
sorting by `latest` returns a new list that is a permutation of the input
(the input itself is untouched — the sort is a pure function on a spread
copy), descending by `timeValue` with an absent timestamp valued `0` (the
epoch); sorting by `name` returns a permutation ascending by title under the
collation model; an input already in `latest` order is returned unchanged, so
ties keep their input order (stability); and on the concrete page
`[가@t1, 나@absent, 다@t2]` with `0 < t1 < t2`, `latest` yields `다, 가, 나`
(the untimed item sinks to the bottom) and `name` yields `가, 나, 다`. -/
theorem sort_semantics (dateParse : String → Int) (tours : List TourItem)
    (h1 : 0 < dateParse "T1") (h2 : dateParse "T1" < dateParse "T2") :
    (sortTours dateParse tours "latest").Perm tours ∧
    List.Sorted (latestLe dateParse) (sortTours dateParse tours "latest") ∧
    (sortTours dateParse tours "name").Perm tours ∧
    List.Sorted nameLe (sortTours dateParse tours "name") ∧
    (List.Sorted (latestLe dateParse) tours →
      sortTours dateParse tours "latest" = tours) ∧
    sortTours dateParse [tourGa, tourNa, tourDa] "latest" =
      [tourDa, tourGa, tourNa] ∧
    sortTours dateParse [tourGa, tourNa, tourDa] "name" =
      [tourGa, tourNa, tourDa] := by
  refine ⟨List.perm_insertionSort _ tours, List.sorted_insertionSort _ tours,
    List.perm_insertionSort _ tours, List.sorted_insertionSort _ tours,
    fun hs => hs.insertionSort_eq, ?_, ?_⟩
  · have hnada : ¬ latestLe dateParse tourNa tourDa := by
      simp [latestLe, timeValue, tourNa, tourDa]
      omega
    have hgada : ¬ latestLe dateParse tourGa tourDa := by
      simp [latestLe, timeValue, tourGa, tourDa]
      omega
    have hgana : latestLe dateParse tourGa tourNa := by
      simp [latestLe, timeValue, tourGa, tourNa]
      omega
    simp [sortTours, sortToursByLatest, List.insertionSort, List.orderedInsert,
      hnada, hgada, hgana]
  · simp only [sortTours]
    decide

/-- C7 witness: the sort theorem applied to a concrete `Date` valuation with
`t1 = 1 < t2 = 2`: the example page sorts to `다, 가, 나` by `latest` and to
`가, 나, 다` by `name`. -/
theorem sort_semantics_witness :
    sortTours (fun s => if s = "T2" then 2 else if s = "T1" then 1 else 0)
      [tourGa, tourNa, tourDa] "latest" = [tourDa, tourGa, tourNa] ∧
    sortTours (fun s => if s = "T2" then 2 else if s = "T1" then 1 else 0)
      [tourGa, tourNa, tourDa] "name" = [tourGa, tourNa, tourDa] :=
  ⟨(sort_semantics (fun s => if s = "T2" then 2 else if s = "T1" then 1 else 0)
      [] (by decide) (by decide)).2.2.2.2.2.1,
   (sort_semantics (fun s => if s = "T2" then 2 else if s = "T1" then 1 else 0)
      [] (by decide) (by decide)).2.2.2.2.2.2⟩

/-! ### Load-more error opacity -/

/-- A concrete API whose base page fetch succeeds with one item while every
per-item pet lookup throws (C10 counterexample input). -/
def petBoomApi : TourApi :=
  { searchKeyword := fun _ _ _ _ _ => Except.ok { items := [], totalCount := 0 }
    getAreaBasedList := fun _ _ _ _ =>
      Except.ok { items := [⟨"c1", "t", none⟩], totalCount := 1 }
    getDetailPetTour := fun _ => Except.error "HTTP 500" }

/-- Concrete pet-friendly browse parameters for page 1 (C10 counterexample
input). -/
def petFriendlyParams : LoadMoreToursParams :=
  { pageNo := 1, areaCode := none, contentTypeId := none, keyword := none
    petFriendly := some true, petSize := none, sort := none }

/-- C10 counterexample: an upstream call inside `loadMoreTours` — the
per-item pet lookup — fails, yet the action does not throw: it returns a
successful result (recording the failed item as absent), so a failing
upstream call does not always surface as the fixed opaque error. -/
theorem load_error_opacity_counterexample :
    petBoomApi.getDetailPetTour "c1" = Except.error "HTTP 500" ∧
    loadMoreTours (fun _ => 0) petBoomApi petFriendlyParams =
      Except.ok { items := [], petInfoMap := [("c1", none)], totalCount := 1,
                  hasMore := false } := by
  constructor
  · rfl
  · rfl

/-- C10 amended: error opacity of `loadMoreTours`.  Whenever the action
throws, the thrown error is a fresh one carrying exactly the fixed message
`관광지 목록을 불러오는 중 오류가 발생했습니다.` — the original upstream
error, its message and status are never propagated — and a failure of the
base browse/search call always produces exactly that opaque error; per-item
pet-lookup failures, by contrast, are swallowed and never make the action
throw. -/
theorem load_error_opacity (dateParse : String → Int) (api : TourApi)
    (params : LoadMoreToursParams) :
    (∀ e, loadMoreTours dateParse api params = Except.error e →
      e = loadErrorMessage) ∧
    ((∀ kw a ct n p, ∃ e, api.searchKeyword kw a ct n p = Except.error e) →
     (∀ a ct n p, ∃ e, api.getAreaBasedList a ct n p = Except.error e) →
     loadMoreTours dateParse api params = Except.error loadErrorMessage) := by
  constructor
  · intro e he
    simp only [loadMoreTours] at he
    split at he
    · injection he with he2
      exact he2.symm
    · simp at he
  · intro hS hA
    simp only [loadMoreTours]
    rcases hk : params.keyword with _ | kw <;> simp only [hk]
    · obtain ⟨e, he⟩ := hA (params.areaCode.getD "1") params.contentTypeId 20
        params.pageNo
      rw [he]
    · by_cases hkw : kw = ""
      · subst hkw
        simp only [ne_eq, not_true_eq_false, reduceIte]
        obtain ⟨e, he⟩ := hA (params.areaCode.getD "1") params.contentTypeId 20
          params.pageNo
        rw [he]
      · simp only [ne_eq, hkw, not_false_eq_true, reduceIte]
        obtain ⟨e, he⟩ := hS kw
          (if params.areaCode.getD "1" ≠ "1" then some (params.areaCode.getD "1")
           else none) params.contentTypeId 20 params.pageNo
        rw [he]

/-- A concrete API in which every remote operation throws, used by the C10
witness. -/
def boomApi : TourApi :=
  { searchKeyword := fun _ _ _ _ _ => Except.error "HTTP 503"
    getAreaBasedList := fun _ _ _ _ => Except.error "HTTP 503"
    getDetailPetTour := fun _ => Except.error "HTTP 503" }

/-- C10 amended witness: with every upstream fetch failing with `HTTP 503`,
the concrete `loadMoreTours` call fails with exactly the opaque fixed
message. -/
theorem load_error_opacity_witness :
    loadMoreTours (fun _ => 0) boomApi page2Params =
      Except.error loadErrorMessage :=
  (load_error_opacity (fun _ => 0) boomApi page2Params).2
    (fun _ _ _ _ _ => ⟨"HTTP 503", rfl⟩) (fun _ _ _ _ => ⟨"HTTP 503", rfl⟩)
